import Mathlib

/-!
Shallow embedding of the image-search core: the preprocessing of the
`utils` package (`ResizeImage`, `CenterCrop`, `PreprocessImage`), the
feature-extraction pipeline of `models.SimpleFeatureExtractor` (color
histogram, texture, spatial grid, combination and L2 normalization), the
batch-ingestion logic of `BatchInserter` (`ProcessDataset` partitioning,
`processBatch` per-item accounting and insert failure handling) and the
`top_k` validation of `ImageHandler.SearchImage`.  Go
`float32`/`float64` arithmetic is idealized as exact arithmetic over `ℚ`
(and `ℝ` where a square root occurs); Go pixel access
`img.At(x,y).RGBA()` is a total function yielding the three 16-bit
channel words; Go runtime panics the pipeline can actually hit are made
explicit as an `Except GoPanic` result, distinct from the functions'
`error` return values.  The external resize/crop primitives the `utils`
code delegates to are modelled from their documented contracts (see
`resizeLib`, `CenterCrop`).
-/

namespace ImageSearch

/-- One pixel as returned by Go's `Color.RGBA()`: 16-bit channel words
(the code immediately shifts them right by 8 to get 8-bit values). -/
structure Pixel where
  r : Nat
  g : Nat
  b : Nat

/-- A decoded image: the bounds rectangle (anchored at the origin, which
loses no generality since every access in the source offsets by
`bounds.Min`) and the pixel function. -/
structure Image where
  width : Nat
  height : Nat
  px : Nat → Nat → Pixel

/-- The `SimpleFeatureExtractor` struct: only the target dimension. -/
structure SimpleFeatureExtractor where
  Dimension : Nat

/-- `NewSimpleFeatureExtractor`: dimension defaults to 512. -/
def NewSimpleFeatureExtractor : SimpleFeatureExtractor :=
  { Dimension := 512 }

/-- Bin selection in `extractColorHistogram`: `rBin := (r >> 8) / 16`
followed by the (unreachable) clamp `if rBin > 15 { rBin = 15 }`. -/
def bin8 (c : Nat) : Nat :=
  let b := (c >>> 8) / 16
  if b > 15 then 15 else b

/-- The set of pixel coordinates of an image (the double loop over
`bounds`). -/
def pixelSet (img : Image) : Finset (Nat × Nat) :=
  Finset.range img.width ×ˢ Finset.range img.height

/-- The histogram counter for one channel: how many pixels fall in bin
`i` (the loop `histR[rBin]++`). -/
def histCount (img : Image) (chan : Pixel → Nat) (i : Nat) : Nat :=
  ((pixelSet img).filter fun q => bin8 (chan (img.px q.1 q.2)) = i).card

/-- `extractColorHistogram`: 48 components, `features[i] = histR[i]/total`,
`features[i+16] = histG[i]/total`, `features[i+32] = histB[i]/total`. -/
def extractColorHistogram (img : Image) : List ℚ :=
  ((List.range 16).map fun i =>
      (histCount img Pixel.r i : ℚ) / (img.width * img.height))
    ++ ((List.range 16).map fun i =>
      (histCount img Pixel.g i : ℚ) / (img.width * img.height))
    ++ ((List.range 16).map fun i =>
      (histCount img Pixel.b i : ℚ) / (img.width * img.height))

/-- Grayscale conversion in `extractTextureFeatures`:
`gray := 0.299*(r>>8) + 0.587*(g>>8) + 0.114*(b>>8)`, stored divided by
255 (so values lie in `[0,1]`). -/
def gray (img : Image) (x y : Nat) : ℚ :=
  (299 / 1000 * ((img.px x y).r >>> 8 : Nat)
    + 587 / 1000 * ((img.px x y).g >>> 8 : Nat)
    + 114 / 1000 * ((img.px x y).b >>> 8 : Nat)) / 255

/-- The contrast accumulator: squared horizontal and vertical neighbor
differences over `y < height-1`, `x < width-1`. -/
def contrastSum (img : Image) : ℚ :=
  ∑ y ∈ Finset.range (img.height - 1), ∑ x ∈ Finset.range (img.width - 1),
    ((gray img x y - gray img (x + 1) y) * (gray img x y - gray img (x + 1) y)
      + (gray img x y - gray img x (y + 1)) * (gray img x y - gray img x (y + 1)))

/-- The energy accumulator: squared grayscale values, accumulated inside
the same loop as the contrast, hence over `y < height-1`, `x < width-1`
only (the last row and column are not summed). -/
def energySum (img : Image) : ℚ :=
  ∑ y ∈ Finset.range (img.height - 1), ∑ x ∈ Finset.range (img.width - 1),
    gray img x y * gray img x y

/-- `contrast /= float32((width-1)*(height-1))` — the divisor is a Go
`int` product, so it is `(w-1)*(h-1)` over `ℤ`, not truncated. -/
def contrast (img : Image) : ℚ :=
  contrastSum img / ((((img.width : ℤ) - 1) * ((img.height : ℤ) - 1) : ℤ) : ℚ)

/-- `energy /= float32(width * height)`. -/
def energy (img : Image) : ℚ :=
  energySum img / (img.width * img.height)

/-- `uniformity = energy // 简化的均匀性度量` — literally the same value. -/
def uniformity (img : Image) : ℚ :=
  energy img

/-- The Sobel X kernel `{{-1,0,1},{-2,0,2},{-1,0,1}}`, indexed `[ky][kx]`. -/
def sobelX : Nat → Nat → ℤ
  | 0, 0 => -1 | 0, 1 => 0 | 0, 2 => 1
  | 1, 0 => -2 | 1, 1 => 0 | 1, 2 => 2
  | 2, 0 => -1 | 2, 1 => 0 | 2, 2 => 1
  | _, _ => 0

/-- The Sobel Y kernel `{{-1,-2,-1},{0,0,0},{1,2,1}}`, indexed `[ky][kx]`. -/
def sobelY : Nat → Nat → ℤ
  | 0, 0 => -1 | 0, 1 => -2 | 0, 2 => -1
  | 1, 0 => 0 | 1, 1 => 0 | 1, 2 => 0
  | 2, 0 => 1 | 2, 1 => 2 | 2, 2 => 1
  | _, _ => 0

/-- The horizontal Sobel response at an interior pixel (`x, y ≥ 1`):
`gx += pixel * sobelX[ky][kx]` over the 3×3 window. -/
def sobelGx (img : Image) (x y : Nat) : ℚ :=
  ∑ ky ∈ Finset.range 3, ∑ kx ∈ Finset.range 3,
    gray img (x + kx - 1) (y + ky - 1) * (sobelX ky kx : ℚ)

/-- The vertical Sobel response at an interior pixel. -/
def sobelGy (img : Image) (x y : Nat) : ℚ :=
  ∑ ky ∈ Finset.range 3, ∑ kx ∈ Finset.range 3,
    gray img (x + kx - 1) (y + ky - 1) * (sobelY ky kx : ℚ)

/-- `calculateEdgeStrength`: the mean Sobel gradient magnitude over the
interior pixels `1 ≤ y < height-1`, `1 ≤ x < width-1`; the divisor
`(width-2)*(height-2)` is a Go `int` product, hence over `ℤ`. -/
noncomputable def calculateEdgeStrength (img : Image) : ℝ :=
  (∑ y ∈ Finset.Ico 1 (img.height - 1), ∑ x ∈ Finset.Ico 1 (img.width - 1),
      Real.sqrt (((sobelGx img x y * sobelGx img x y
        + sobelGy img x y * sobelGy img x y : ℚ) : ℝ)))
    / ((((img.width : ℤ) - 2) * ((img.height : ℤ) - 2) : ℤ) : ℝ)

/-- `extractTextureFeatures`: `[]float32{contrast, energy, uniformity,
edgeStrength}`. -/
noncomputable def extractTextureFeatures (img : Image) : List ℝ :=
  [(contrast img : ℝ), (energy img : ℝ), (uniformity img : ℝ),
    calculateEdgeStrength img]

/-- `cellWidth := width / gridSize` with `gridSize = 4`. -/
def cellWidth (img : Image) : Nat :=
  img.width / 4

/-- `cellHeight := height / gridSize`. -/
def cellHeight (img : Image) : Nat :=
  img.height / 4

/-- The pixel coordinates of grid cell `(gx, gy)` in
`extractSpatialFeatures`: `x ∈ [gx*cellWidth, min((gx+1)*cellWidth, width))`
and likewise for `y` (the `endX > width` clamp). -/
def cellSet (img : Image) (gx gy : Nat) : Finset (Nat × Nat) :=
  Finset.Ico (gx * cellWidth img) (min ((gx + 1) * cellWidth img) img.width)
    ×ˢ Finset.Ico (gy * cellHeight img) (min ((gy + 1) * cellHeight img) img.height)

/-- Channel selection for component `idx` with `idx % 3 = 0, 1, 2`
(`totalR`, `totalG`, `totalB`). -/
def chanSel : Nat → Pixel → Nat
  | 0, p => p.r
  | 1, p => p.g
  | _, p => p.b

/-- The per-cell channel accumulator `totalR += float64(r >> 8)` etc. -/
def cellTotal (img : Image) (c gx gy : Nat) : ℚ :=
  ∑ q ∈ cellSet img gx gy, ((chanSel c (img.px q.1 q.2) >>> 8 : Nat) : ℚ)

/-- One component of the spatial feature: mean of the channel over the
cell divided by 255, written only `if count > 0` (otherwise the array
slot keeps its zero initial value). -/
def cellComp (img : Image) (c gx gy : Nat) : ℚ :=
  if 0 < (cellSet img gx gy).card then
    cellTotal img c gx gy / (cellSet img gx gy).card / 255
  else 0

/-- `extractSpatialFeatures`: an array of `4*4*3 = 48` components where
slot `(gy*4+gx)*3 + c` holds channel `c` of cell `(gx, gy)`; written as
the map recovering `(c, gx, gy)` from the slot index. -/
def extractSpatialFeatures (img : Image) : List ℚ :=
  (List.range 48).map fun idx =>
    cellComp img (idx % 3) ((idx / 3) % 4) (idx / 3 / 4)

/-- The abnormal terminations the preprocessing/extraction pipeline can
hit, as distinct from the Go `error` result value (which stays an
`Option String`): the integer divide-by-zero in `utils.ResizeImage`
(`targetSize*width/height` with `height = 0`) and the index-out-of-range
in `calculateEdgeStrength` (`len(grayImg[0])` on a zero-height grid).
An `Except.error` means the Go program panics and returns nothing. -/
inductive GoPanic where
  | divideByZero
  | indexOutOfRange
deriving DecidableEq, Repr

/-- The external library's substitution for a zero requested dimension
(`nfnt/resize`): the aspect-preserving value is computed on floats as
`uint(0.7 + a/b)`, which for the non-negative exact ratio `a/b` is the
rational floor `(7*b + 10*a) / (10*b)`, here in `Nat` division (junk 0
when `b = 0`, a case the pipeline never reaches). -/
def nfntRound (a b : Nat) : Nat :=
  (7 * b + 10 * a) / (10 * b)

/-- Modelled from the external resize library's documented contract
(`github.com/nfnt/resize`, an external collaborator): `Resize(w, h,
img)` returns an image of exactly `w×h` when both are non-zero; a zero
parameter is replaced by the aspect-ratio-preserving value (see
`nfntRound`; for a zero height the library computes
`uint(0.7 + origH*w/origW)`, and symmetrically); with both zero the
original size is kept.  Pixel content is modelled as nearest-neighbour
sampling — no claim depends on the Lanczos3 kernel's numeric output. -/
def resizeLib (w h : Nat) (img : Image) : Image :=
  if w = 0 ∧ h = 0 then img
  else
    let rw := if w = 0 then nfntRound (img.width * h) img.height else w
    let rh := if h = 0 then nfntRound (img.height * w) img.width else h
    { width := rw
      height := rh
      px := fun x y => img.px (x * img.width / rw) (y * img.height / rh) }

/-- `utils.ResizeImage`: the longer dimension maps to `targetSize`, the
other to the aspect-scaled integer quotient.  When `width > height` the
division is by `width ≥ 1`, so it cannot trap; otherwise it divides by
`height`, and with `height = 0` (hence `width = 0` too, since
`width ≤ height`) the Go runtime panics with an integer divide by
zero. -/
def ResizeImage (img : Image) (targetSize : Nat) : Except GoPanic Image :=
  if img.width > img.height then
    Except.ok (resizeLib targetSize (targetSize * img.height / img.width) img)
  else if img.height = 0 then
    Except.error GoPanic.divideByZero
  else
    Except.ok (resizeLib (targetSize * img.width / img.height) targetSize img)

/-- `utils.CenterCrop`, via the external `imaging.CropCenter` contract:
the centered `size×size` rectangle intersected with the image bounds, so
each output dimension is `min size dim` and the kept pixels start at the
clamped offset `(dim - size)/2`. -/
def CenterCrop (img : Image) (size : Nat) : Image :=
  { width := min size img.width
    height := min size img.height
    px := fun x y =>
      img.px (x + (img.width - size) / 2) (y + (img.height - size) / 2) }

/-- `utils.PreprocessImage`: resize to `size+50` (longer side), then
center-crop to `size`; the divide-by-zero panic of `ResizeImage`
propagates. -/
def PreprocessImage (img : Image) (size : Nat) : Except GoPanic Image :=
  (ResizeImage img (size + 50)).map fun resized => CenterCrop resized size

/-- The squared Euclidean norm accumulated in `l2Normalize`:
`norm += float64(f * f)`. -/
def normSq (v : List ℝ) : ℝ :=
  (v.map fun f => f * f).sum

/-- `l2Normalize`: divide by `math.Sqrt(norm)` unless that norm is zero,
in which case the vector is returned unchanged. -/
noncomputable def l2Normalize (v : List ℝ) : List ℝ :=
  let n := Real.sqrt (normSq v)
  if n = 0 then v else v.map fun f => f / n

/-- The Euclidean norm of a feature vector (for stating §8's norm-1
property). -/
noncomputable def euclNorm (v : List ℝ) : ℝ :=
  Real.sqrt (normSq v)

/-- The concatenation `colorFeatures ++ textureFeatures ++ spatialFeatures`
built in `ExtractFeatures`. -/
noncomputable def rawFeatures (img : Image) : List ℝ :=
  ((extractColorHistogram img).map fun q : ℚ => (q : ℝ))
    ++ extractTextureFeatures img
    ++ ((extractSpatialFeatures img).map fun q : ℚ => (q : ℝ))

/-- The pad/truncate step of `ExtractFeatures`: truncate when longer than
`Dimension`, zero-pad when shorter. -/
def fitToDimension (d : Nat) (v : List ℝ) : List ℝ :=
  if v.length > d then v.take d
  else v ++ List.replicate (d - v.length) 0

/-- The texture extraction as actually run: `extractTextureFeatures`
builds `grayImg` with one row per image row and then
`calculateEdgeStrength` reads `len(grayImg[0])` — an index-out-of-range
panic when the canonical image has no rows; otherwise the four texture
components. -/
noncomputable def extractTextureFeaturesE (img : Image) :
    Except GoPanic (List ℝ) :=
  if img.height = 0 then Except.error GoPanic.indexOutOfRange
  else Except.ok (extractTextureFeatures img)

/-- `ExtractFeatures`: preprocess to 224 (propagating its panic),
extract and concatenate the three feature groups (propagating the
texture panic), fit to `Dimension`, L2-normalize; the function's single
return statement is `return e.l2Normalize(features), nil`, so whenever
it returns, the Go `error` result is `nil` (`none`). -/
noncomputable def ExtractFeatures (e : SimpleFeatureExtractor) (img : Image) :
    Except GoPanic (List ℝ × Option String) :=
  match PreprocessImage img 224 with
  | Except.error p => Except.error p
  | Except.ok processed =>
    match extractTextureFeaturesE processed with
    | Except.error p => Except.error p
    | Except.ok textureFeatures =>
      Except.ok (l2Normalize (fitToDimension e.Dimension
        (((extractColorHistogram processed).map fun q : ℚ => (q : ℝ))
          ++ textureFeatures
          ++ ((extractSpatialFeatures processed).map fun q : ℚ => (q : ℝ)))),
        none)

/-- The vector `ExtractFeatures` produces on its successful path for a
canonical image: combined features, padded/truncated, L2-normalized. -/
noncomputable def featureVector (e : SimpleFeatureExtractor) (c : Image) :
    List ℝ :=
  l2Normalize (fitToDimension e.Dimension (rawFeatures c))

/-- One slice step of the `ProcessDataset` dispatch loop, with an
explicit iteration budget: with batch size `b+1` the loop runs at most
`len(files)` times, so a fuel of the list length makes the recursion
structural (and the model executable). -/
def chunkGo {α : Type} (b : Nat) : Nat → List α → List (List α)
  | _, [] => []
  | 0, _ :: _ => []
  | fuel + 1, a :: l => (a :: l).take (b + 1) :: chunkGo b fuel (l.drop b)

/-- The batch partition of `ProcessDataset`: the loop
`for i := 0; i < len(files); i += batchSize` dispatches
`files[i:min(i+batchSize, len)]` in order.  A `batchSize` of zero would
loop forever in the source; the model returns no batches in that
(caller-excluded) case. -/
def chunkBatches {α : Type} (B : Nat) (l : List α) : List (List α) :=
  match B with
  | 0 => []
  | b + 1 => chunkGo b l.length l

/-- `BatchResult` (the diagnostic `BatchID` string is omitted; the
`Error error` field is modelled by whether it is non-nil). -/
structure BatchResult where
  Success : Bool
  ProcessedCount : Nat
  ErrorCount : Nat
  hasError : Bool
deriving DecidableEq, Repr

/-- The three fallible per-item steps of `processBatch`, as oracles on
the file path: `utils.LoadImageFromFile`, the interface call
`featureExtractor.ExtractFeatures` (fallible at the interface even
though `SimpleFeatureExtractor` never fails), and `copyImageFile`. -/
structure ItemOracle where
  loadOk : String → Bool
  extractOk : String → Bool
  copyOk : String → Bool

/-- The item loop of `processBatch`: each failing step logs, increments
`errorCount` and continues; a surviving item appends its id/vector pair
(represented by its path) and increments `successCount`.  Returns
`(imageIDs, successCount, errorCount)`. -/
def procItems (o : ItemOracle) : List String → List String × Nat × Nat
  | [] => ([], 0, 0)
  | p :: rest =>
    let r := procItems o rest
    if o.loadOk p then
      if o.extractOk p then
        if o.copyOk p then (p :: r.1, r.2.1 + 1, r.2.2)
        else (r.1, r.2.1, r.2.2 + 1)
      else (r.1, r.2.1, r.2.2 + 1)
    else (r.1, r.2.1, r.2.2 + 1)

/-- `processBatch`: after the item loop, a single
`InsertVectors(imageIDs, vectors)` call is made if any item survived;
on its failure the whole batch is reported failed with
`ProcessedCount: 0, ErrorCount: len(imagePaths)` and the error recorded,
otherwise the per-item tallies are reported with a nil error. -/
def processBatch (o : ItemOracle) (insertOk : List String → Bool)
    (imagePaths : List String) : BatchResult :=
  let r := procItems o imagePaths
  if 0 < r.1.length ∧ ¬ insertOk r.1 then
    { Success := false, ProcessedCount := 0, ErrorCount := imagePaths.length,
      hasError := true }
  else
    { Success := true, ProcessedCount := r.2.1, ErrorCount := r.2.2,
      hasError := false }

/-- The argument of the batch's single `InsertVectors` call, when one is
made (`if len(imageIDs) > 0`). -/
def insertArg (o : ItemOracle) (imagePaths : List String) : Option (List String) :=
  let r := procItems o imagePaths
  if 0 < r.1.length then some r.1 else none

/-- A worker's whole run: each batch pulled from the jobs channel is
processed independently with `processBatch` and yields exactly one
`BatchResult`. -/
def runBatches (o : ItemOracle) (insertOk : List String → Bool)
    (batches : List (List String)) : List BatchResult :=
  batches.map (processBatch o insertOk)

/-- Decimal digit test for the `strconv.Atoi` model. -/
def isDigit (c : Char) : Bool :=
  decide ('0' ≤ c) && decide (c ≤ '9')

/-- Value of a digit character. -/
def digitVal (c : Char) : Nat :=
  c.toNat - '0'.toNat

/-- Parse a non-empty all-digit string in base 10. -/
def digitsVal : List Char → Option Nat
  | [] => none
  | l =>
    if l.all isDigit then some (l.foldl (fun a c => a * 10 + digitVal c) 0)
    else none

/-- Largest Go `int` (64-bit). -/
def goMaxInt : Nat := 2 ^ 63 - 1

/-- Model of `strconv.Atoi`: optional sign, at least one decimal digit,
error (`none`) on any other syntax and on values outside the 64-bit
`int` range (Go returns a non-nil `ErrRange` error there, which the
handler treats the same as a syntax error). -/
def atoi (s : String) : Option Int :=
  match s.data with
  | '+' :: rest =>
    match digitsVal rest with
    | none => none
    | some n => if n ≤ goMaxInt then some (n : Int) else none
  | '-' :: rest =>
    match digitsVal rest with
    | none => none
    | some n => if n ≤ 2 ^ 63 then some (-(n : Int)) else none
  | l =>
    match digitsVal l with
    | none => none
    | some n => if n ≤ goMaxInt then some (n : Int) else none

/-- Observable trace of one `SearchImage` request: the HTTP status, and
whether `ExtractFeatures` and `SearchSimilar` were reached, with the
`topK` value passed to `SearchSimilar` when it was. -/
structure SearchTrace where
  status : Nat
  extractCalled : Bool
  searchCalled : Bool
  usedTopK : Option Int
deriving DecidableEq, Repr

/-- `ImageHandler.SearchImage`: `top_k` defaults to `"10"`
(`c.DefaultQuery`), is parsed with `strconv.Atoi` and rejected with
HTTP 400 when `err != nil || topK <= 0 || topK > 100`; only then do the
form-file, format, load, extract and search steps run (each modelled by
a success flag of the request). -/
def SearchImage (topKParam : Option String)
    (hasFile validFormat loadOk extractOk searchOk : Bool) : SearchTrace :=
  let topKStr := topKParam.getD "10"
  match atoi topKStr with
  | none => ⟨400, false, false, none⟩
  | some k =>
    if k ≤ 0 ∨ 100 < k then ⟨400, false, false, none⟩
    else if ¬ hasFile then ⟨400, false, false, none⟩
    else if ¬ validFormat then ⟨400, false, false, none⟩
    else if ¬ loadOk then ⟨500, false, false, none⟩
    else if ¬ extractOk then ⟨500, true, false, none⟩
    else if ¬ searchOk then ⟨500, true, true, some k⟩
    else ⟨200, true, true, some k⟩

/-- Modelled from the spec (stated for comparison with the code's
`energy`, §4.1 step 3): the mean of the squared grayscale values over
the whole canonical image — every pixel, divided by the total pixel
count. -/
def specEnergyWholeMean (img : Image) : ℚ :=
  (∑ y ∈ Finset.range img.height, ∑ x ∈ Finset.range img.width,
      gray img x y * gray img x y)
    / (img.width * img.height)

/-- A 32×32 solid red image (`R=255, G=0, B=0` at every pixel, as 16-bit
channel words). -/
def redImage : Image :=
  { width := 32, height := 32, px := fun _ _ => ⟨65535, 0, 0⟩ }

/-- A zero-area image. -/
def zeroImage : Image :=
  { width := 0, height := 0, px := fun _ _ => ⟨0, 0, 0⟩ }

/-- A zero-area image with positive height (width 0). -/
def tallZeroImage : Image :=
  { width := 0, height := 5, px := fun _ _ => ⟨0, 0, 0⟩ }

/-- A valid (non-zero-area) 1000×1 image: its aspect ratio is so extreme
that resizing requests height `274*1/1000 = 0` and the library's
aspect-preserving substitute is still 0. -/
def wideImage : Image :=
  { width := 1000, height := 1, px := fun _ _ => ⟨65535, 65535, 65535⟩ }

/-- A 300×300 solid gray source image. -/
def img300 : Image :=
  { width := 300, height := 300, px := fun _ _ => ⟨32768, 32768, 32768⟩ }

/-- The canonical image the pipeline produces from `img300`: resized to
274×274, center-cropped to 224×224. -/
def canon300 : Image :=
  CenterCrop (resizeLib 274 274 img300) 224

/-- A canonical-size (224×224) image that is white on its last row and
black elsewhere. -/
def lastRowWhite : Image :=
  { width := 224, height := 224
    px := fun _ y => if y = 223 then ⟨65535, 65535, 65535⟩ else ⟨0, 0, 0⟩ }

/-- A canonical-size (224×224) solid gray image. -/
def canon224 : Image :=
  { width := 224, height := 224, px := fun _ _ => ⟨32768, 32768, 32768⟩ }

/-- An item oracle under which every per-item step succeeds. -/
def oracleAllOk : ItemOracle :=
  { loadOk := fun _ => true, extractOk := fun _ => true, copyOk := fun _ => true }

/-- An item oracle under which loading the file named "bad" fails and
everything else succeeds. -/
def oracleBadLoad : ItemOracle :=
  { loadOk := fun p => p != "bad", extractOk := fun _ => true,
    copyOk := fun _ => true }

/-! ## Batch partitioning (`ProcessDataset`) -/

lemma chunkGo_join {α : Type} (b : Nat) :
    ∀ (fuel : Nat) (l : List α), l.length ≤ fuel →
      (chunkGo b fuel l).flatten = l := by
  intro fuel
  induction fuel with
  | zero =>
    intro l hl
    cases l with
    | nil => simp [chunkGo]
    | cons a l' => simp at hl
  | succ n ih =>
    intro l hl
    cases l with
    | nil => simp [chunkGo]
    | cons a l' =>
      simp only [chunkGo, List.flatten_cons]
      rw [ih (l'.drop b) (by simp only [List.length_drop]; simp at hl; omega)]
      rw [← List.drop_succ_cons]
      exact List.take_append_drop _ _

lemma chunkGo_length {α : Type} (b : Nat) :
    ∀ (fuel : Nat) (l : List α), l.length ≤ fuel →
      (chunkGo b fuel l).length = (l.length + b) / (b + 1) := by
  intro fuel
  induction fuel with
  | zero =>
    intro l hl
    cases l with
    | nil =>
      simp only [chunkGo, List.length_nil, List.length_nil, Nat.zero_add]
      rw [Nat.div_eq_of_lt (by omega)]
    | cons a l' => simp at hl
  | succ n ih =>
    intro l hl
    cases l with
    | nil =>
      simp only [chunkGo, List.length_nil, Nat.zero_add]
      rw [Nat.div_eq_of_lt (by omega)]
    | cons a l' =>
      simp only [chunkGo, List.length_cons]
      rw [ih (l'.drop b) (by simp only [List.length_drop]; simp at hl; omega)]
      simp only [List.length_drop]
      rcases le_or_lt l'.length b with h | h
      · have e0 : l'.length - b = 0 := by omega
        have e1 : (0 + b) / (b + 1) = 0 := Nat.div_eq_of_lt (by omega)
        have e2 : l'.length + 1 + b = l'.length + (b + 1) := by omega
        have e3 : l'.length / (b + 1) = 0 := Nat.div_eq_of_lt (by omega)
        rw [e0, e1, e2, Nat.add_div_right _ (by omega), e3]
      · have e0 : l'.length - b + b = l'.length := by omega
        have e2 : l'.length + 1 + b = l'.length + (b + 1) := by omega
        rw [e0, e2, Nat.add_div_right _ (by omega)]

lemma chunkGo_sizes {α : Type} (b : Nat) :
    ∀ (fuel : Nat) (l : List α), ∀ c ∈ chunkGo b fuel l, c.length ≤ b + 1 := by
  intro fuel
  induction fuel with
  | zero =>
    intro l c hc
    cases l with
    | nil => simp [chunkGo] at hc
    | cons a l' => simp [chunkGo] at hc
  | succ n ih =>
    intro l c hc
    cases l with
    | nil => simp [chunkGo] at hc
    | cons a l' =>
      simp only [chunkGo, List.mem_cons] at hc
      rcases hc with rfl | hc
      · simp only [List.length_take]
        omega
      · exact ih (l'.drop b) c hc

lemma chunkGo_get {α : Type} (b : Nat) :
    ∀ (fuel : Nat) (l : List α), l.length ≤ fuel →
      ∀ i, i < (chunkGo b fuel l).length →
        (chunkGo b fuel l).get? i = some ((l.drop (i * (b + 1))).take (b + 1)) := by
  intro fuel
  induction fuel with
  | zero =>
    intro l hl i hi
    cases l with
    | nil => simp [chunkGo] at hi
    | cons a l' => simp at hl
  | succ n ih =>
    intro l hl i hi
    cases l with
    | nil => simp [chunkGo] at hi
    | cons a l' =>
      cases i with
      | zero => simp [chunkGo]
      | succ i =>
        simp only [chunkGo, List.get?_cons_succ, List.length_cons] at hi ⊢
        rw [ih (l'.drop b) (by simp only [List.length_drop]; simp at hl; omega) i
          (by omega)]
        rw [List.drop_drop]
        rw [show (i + 1) * (b + 1) = (b + i * (b + 1)) + 1 by ring]
        rw [List.drop_succ_cons]

set_option maxRecDepth 40000 in
/-- C4: partitioning `N` discovered files with batch size `B > 0` yields
`ceil(N/B)` batches, every batch has size at most `B`, batch `i` is the
consecutive slice starting at `i*B`, and the concatenation of the
batches in dispatch order is the original list; concretely, 230 files
with `B = 50` give 5 batches sized `[50, 50, 50, 50, 30]`. -/
theorem ProcessDataset_partition :
    (∀ (α : Type) (B : Nat) (l : List α), 0 < B →
      (chunkBatches B l).length = (l.length + B - 1) / B ∧
      (∀ c ∈ chunkBatches B l, c.length ≤ B) ∧
      (∀ i, i < (chunkBatches B l).length →
        (chunkBatches B l).get? i = some ((l.drop (i * B)).take B)) ∧
      (chunkBatches B l).flatten = l) ∧
    (chunkBatches 50 (List.range 230)).map List.length = [50, 50, 50, 50, 30] := by
  constructor
  · intro α B l hB
    obtain ⟨b, rfl⟩ : ∃ b, B = b + 1 := ⟨B - 1, by omega⟩
    refine ⟨?_, ?_, ?_, ?_⟩
    · rw [show chunkBatches (b + 1) l = chunkGo b l.length l from rfl,
        chunkGo_length b l.length l le_rfl]
      congr 1
    · exact chunkGo_sizes b l.length l
    · exact chunkGo_get b l.length l le_rfl
    · exact chunkGo_join b l.length l le_rfl
  · decide

theorem ProcessDataset_partition_witness :
    (chunkBatches 3 ["a", "b", "c", "d"]).length = (4 + 3 - 1) / 3 ∧
    (chunkBatches 3 ["a", "b", "c", "d"]).flatten = ["a", "b", "c", "d"] := by
  have h := ProcessDataset_partition.1 String 3 ["a", "b", "c", "d"] (by decide)
  exact ⟨by simpa using h.1, h.2.2.2⟩

/-! ## Batch accounting (`processBatch`) -/

lemma procItems_counts (o : ItemOracle) (paths : List String) :
    (procItems o paths).2.1 + (procItems o paths).2.2 = paths.length ∧
    (procItems o paths).1.length = (procItems o paths).2.1 := by
  induction paths with
  | nil => simp [procItems]
  | cons p rest ih =>
    rcases ih with ⟨h1, h2⟩
    by_cases hl : o.loadOk p <;> by_cases he : o.extractOk p <;>
      by_cases hc : o.copyOk p <;>
      simp [procItems, hl, he, hc, h2] <;> omega

lemma procItems_append (o : ItemOracle) (xs ys : List String) :
    procItems o (xs ++ ys) =
      ((procItems o xs).1 ++ (procItems o ys).1,
        (procItems o xs).2.1 + (procItems o ys).2.1,
        (procItems o xs).2.2 + (procItems o ys).2.2) := by
  induction xs with
  | nil => simp [procItems]
  | cons p rest ih =>
    by_cases hl : o.loadOk p <;> by_cases he : o.extractOk p <;>
      by_cases hc : o.copyOk p <;>
      simp [procItems, hl, he, hc, ih] <;> omega

lemma procItems_failed_cons (o : ItemOracle) (bad : String) (ys : List String)
    (hbad : o.loadOk bad = false ∨ o.extractOk bad = false ∨
      o.copyOk bad = false) :
    procItems o (bad :: ys) =
      ((procItems o ys).1, (procItems o ys).2.1, (procItems o ys).2.2 + 1) := by
  rcases hbad with h | h | h <;>
    by_cases hl : o.loadOk bad <;> by_cases he : o.extractOk bad <;>
    simp_all [procItems]

/-- C3: for every batch of image paths given to `processBatch`, the
returned `BatchResult` satisfies
`ProcessedCount + ErrorCount = len(batch)`: on the success path each
item contributes to exactly one of the two counters, and on the
insert-failure path the counts are `0` and `len(batch)`. -/
theorem processBatch_counts_partition (o : ItemOracle)
    (insertOk : List String → Bool) (batch : List String) :
    (processBatch o insertOk batch).ProcessedCount
      + (processBatch o insertOk batch).ErrorCount = batch.length := by
  have h := procItems_counts o batch
  simp only [processBatch]
  split
  · simp
  · simpa using h.1

/-- C5: a batch in which at least one item survives but the single
insert call fails is reported with `ProcessedCount = 0` and
`ErrorCount = len(batch)` and a recorded error; and the failure is
confined to that batch's `BatchResult` — the worker's run maps every
other batch to its own independent result. -/
theorem processBatch_insert_failure (o : ItemOracle)
    (insertOk : List String → Bool) (batch : List String)
    (hsurv : 0 < (procItems o batch).1.length)
    (hfail : insertOk (procItems o batch).1 = false) :
    processBatch o insertOk batch =
      ⟨false, 0, batch.length, true⟩ ∧
    ∀ pre post : List (List String),
      runBatches o insertOk (pre ++ batch :: post) =
        runBatches o insertOk pre
          ++ processBatch o insertOk batch :: runBatches o insertOk post := by
  constructor
  · simp only [processBatch]
    rw [if_pos ⟨hsurv, by simp [hfail]⟩]
  · intro pre post
    simp [runBatches]

theorem processBatch_insert_failure_witness :
    processBatch oracleAllOk (fun _ => false) ["a"] = ⟨false, 0, 1, true⟩ ∧
    runBatches oracleAllOk (fun _ => false) ([["x"]] ++ ["a"] :: []) =
      runBatches oracleAllOk (fun _ => false) [["x"]]
        ++ processBatch oracleAllOk (fun _ => false) ["a"]
          :: runBatches oracleAllOk (fun _ => false) [] := by
  have h := processBatch_insert_failure oracleAllOk (fun _ => false) ["a"]
    (by decide) (by decide)
  exact ⟨h.1, h.2 [["x"]] []⟩

/-- C9: a single failing item (image load, feature extraction, or file
copy) adds exactly one to the batch's error count and nothing else: the
surviving items around it are still processed, accumulated in order,
and — when the insert call succeeds — reported, with the single insert
call carrying exactly the survivors of both sides. -/
theorem processBatch_item_failure_localized (o : ItemOracle)
    (ins : List String → Bool) (xs ys : List String) (bad : String)
    (hbad : o.loadOk bad = false ∨ o.extractOk bad = false ∨
      o.copyOk bad = false) :
    (procItems o (xs ++ bad :: ys)).1 =
      (procItems o xs).1 ++ (procItems o ys).1 ∧
    (procItems o (xs ++ bad :: ys)).2.1 =
      (procItems o xs).2.1 + (procItems o ys).2.1 ∧
    (procItems o (xs ++ bad :: ys)).2.2 =
      (procItems o xs).2.2 + (procItems o ys).2.2 + 1 ∧
    insertArg o (xs ++ bad :: ys) =
      (if 0 < ((procItems o xs).1 ++ (procItems o ys).1).length
        then some ((procItems o xs).1 ++ (procItems o ys).1) else none) ∧
    (ins ((procItems o (xs ++ bad :: ys)).1) = true →
      processBatch o ins (xs ++ bad :: ys) =
        ⟨true, (procItems o xs).2.1 + (procItems o ys).2.1,
          (procItems o xs).2.2 + (procItems o ys).2.2 + 1, false⟩) := by
  have hsplit : procItems o (xs ++ bad :: ys) =
      ((procItems o xs).1 ++ (procItems o ys).1,
        (procItems o xs).2.1 + (procItems o ys).2.1,
        (procItems o xs).2.2 + ((procItems o ys).2.2 + 1)) := by
    rw [procItems_append, procItems_failed_cons o bad ys hbad]
  refine ⟨by rw [hsplit], by rw [hsplit], by rw [hsplit]; ring, ?_, ?_⟩
  · simp only [insertArg]
    rw [hsplit]
  · intro hins
    have hins' : ins ((procItems o xs).1 ++ (procItems o ys).1) = true := by
      rw [hsplit] at hins
      exact hins
    simp only [processBatch]
    rw [hsplit]
    dsimp only
    rw [if_neg (by simp [hins'])]
    simp [BatchResult.mk.injEq]
    ring

theorem processBatch_item_failure_localized_witness :
    (procItems oracleBadLoad (["a"] ++ "bad" :: ["c"])).1 =
      (procItems oracleBadLoad ["a"]).1 ++ (procItems oracleBadLoad ["c"]).1 ∧
    processBatch oracleBadLoad (fun _ => true) (["a"] ++ "bad" :: ["c"]) =
      ⟨true,
        (procItems oracleBadLoad ["a"]).2.1 + (procItems oracleBadLoad ["c"]).2.1,
        (procItems oracleBadLoad ["a"]).2.2 + (procItems oracleBadLoad ["c"]).2.2
          + 1,
        false⟩ := by
  have h := processBatch_item_failure_localized oracleBadLoad (fun _ => true)
    ["a"] ["c"] "bad" (Or.inl (by decide))
  exact ⟨h.1, h.2.2.2.2 rfl⟩


/-! ## `top_k` validation (`SearchImage`) -/

/-- C10: `top_k` defaults to `"10"` when absent (the request behaves
exactly as one carrying `"10"`, whose parse is 10); any value that does
not parse or parses outside `1..100` yields an HTTP 400 response with
neither feature extraction nor vector-store search performed; any value
parsing to `k` with `1 ≤ k ≤ 100` is accepted and `k` is the value
handed to the vector-store search. -/
theorem SearchImage_topK_validation :
    (∀ f1 f2 f3 f4 f5 : Bool,
      SearchImage none f1 f2 f3 f4 f5 = SearchImage (some "10") f1 f2 f3 f4 f5) ∧
    atoi "10" = some 10 ∧
    (∀ (s : String) (f1 f2 f3 f4 f5 : Bool),
      (atoi s = none ∨ ∃ k, atoi s = some k ∧ (k ≤ 0 ∨ 100 < k)) →
      SearchImage (some s) f1 f2 f3 f4 f5 = ⟨400, false, false, none⟩) ∧
    (∀ (s : String) (k : Int), atoi s = some k → 1 ≤ k → k ≤ 100 →
      SearchImage (some s) true true true true true = ⟨200, true, true, some k⟩) := by
  refine ⟨fun f1 f2 f3 f4 f5 => rfl, by decide, ?_, ?_⟩
  · intro s f1 f2 f3 f4 f5 h
    rcases h with h | ⟨k, hk, hrange⟩
    · simp [SearchImage, h]
    · simp only [SearchImage, Option.getD_some]
      rw [hk]
      simp only [if_pos hrange]
  · intro s k hk h1 h100
    have hno : ¬ (k ≤ 0 ∨ 100 < k) := by omega
    simp [SearchImage, hk, hno]

theorem SearchImage_topK_validation_witness :
    SearchImage (some "abc") true true true true true =
      ⟨400, false, false, none⟩ ∧
    SearchImage (some "101") true true true true true =
      ⟨400, false, false, none⟩ ∧
    SearchImage (some "0") true true true true true =
      ⟨400, false, false, none⟩ ∧
    SearchImage (some "10") true true true true true =
      ⟨200, true, true, some 10⟩ := by
  refine ⟨?_, ?_, ?_, ?_⟩
  · exact SearchImage_topK_validation.2.2.1 "abc" true true true true true
      (Or.inl (by decide))
  · exact SearchImage_topK_validation.2.2.1 "101" true true true true true
      (Or.inr ⟨101, by decide, by decide⟩)
  · exact SearchImage_topK_validation.2.2.1 "0" true true true true true
      (Or.inr ⟨0, by decide, by decide⟩)
  · exact SearchImage_topK_validation.2.2.2 "10" 10 (by decide) (by decide)
      (by decide)

/-! ## Color histogram (`extractColorHistogram`) -/

lemma bin8_le (v : Nat) : bin8 v ≤ 15 := by
  simp only [bin8]
  split <;> omega

lemma bin8_top (v : Nat) (h : v >>> 8 = 255) : bin8 v = 15 := by
  simp only [bin8, h]
  decide

lemma histCount_sum (img : Image) (chan : Pixel → Nat) :
    ∑ i ∈ Finset.range 16, histCount img chan i = img.width * img.height := by
  simp only [histCount]
  have H : ∀ q ∈ pixelSet img,
      (fun q : Nat × Nat => bin8 (chan (img.px q.1 q.2))) q ∈ Finset.range 16 := by
    intro q _
    show bin8 (chan (img.px q.1 q.2)) ∈ Finset.range 16
    exact Finset.mem_range.mpr (by have := bin8_le (chan (img.px q.1 q.2)); omega)
  rw [← Finset.card_eq_sum_card_fiberwise H]
  simp [pixelSet]

/-- C8: the color histogram has 48 components; each pixel's 8-bit
channel value is quantized into one of 16 bins, never past bin 15 and
with 8-bit value 255 landing in bin 15; every bin count is divided by
the total pixel count, so that each channel's 16 bins sum to 1; and the
components are ordered as the 16 bins of channel R, then G, then B. -/
theorem extractColorHistogram_spec (img : Image)
    (hw : 0 < img.width) (hh : 0 < img.height) :
    (extractColorHistogram img).length = 48 ∧
    (∀ v : Nat, bin8 v ≤ 15) ∧
    (∀ v : Nat, v >>> 8 = 255 → bin8 v = 15) ∧
    extractColorHistogram img =
      ((List.range 16).map fun i =>
        (histCount img Pixel.r i : ℚ) / (img.width * img.height))
      ++ ((List.range 16).map fun i =>
        (histCount img Pixel.g i : ℚ) / (img.width * img.height))
      ++ ((List.range 16).map fun i =>
        (histCount img Pixel.b i : ℚ) / (img.width * img.height)) ∧
    (∑ i ∈ Finset.range 16,
      (histCount img Pixel.r i : ℚ) / (img.width * img.height)) = 1 ∧
    (∑ i ∈ Finset.range 16,
      (histCount img Pixel.g i : ℚ) / (img.width * img.height)) = 1 ∧
    (∑ i ∈ Finset.range 16,
      (histCount img Pixel.b i : ℚ) / (img.width * img.height)) = 1 := by
  have key : ∀ chan : Pixel → Nat,
      (∑ i ∈ Finset.range 16,
        (histCount img chan i : ℚ) / (img.width * img.height)) = 1 := by
    intro chan
    have h0 : ((img.width : ℚ) * img.height) ≠ 0 := by
      have hp : (0 : ℚ) < (img.width : ℚ) * img.height := by
        exact_mod_cast Nat.mul_pos hw hh
      exact ne_of_gt hp
    rw [← Finset.sum_div, ← Nat.cast_sum, histCount_sum, Nat.cast_mul]
    exact div_self h0
  exact ⟨by simp [extractColorHistogram], bin8_le, bin8_top, rfl,
    key Pixel.r, key Pixel.g, key Pixel.b⟩

theorem extractColorHistogram_spec_witness :
    (extractColorHistogram redImage).length = 48 ∧
    (∑ i ∈ Finset.range 16,
      (histCount redImage Pixel.r i : ℚ)
        / (redImage.width * redImage.height)) = 1 := by
  have h := extractColorHistogram_spec redImage (by decide) (by decide)
  exact ⟨h.1, h.2.2.2.2.1⟩

/-! ## Spatial grid (`extractSpatialFeatures`) -/

/-- C6: on a canonical (224×224) image the 4×4 grid consists of sixteen
equal 56×56 cells that jointly cover every pixel; component
`(gy*4+gx)*3 + c` of the 48-component spatial feature is the mean of
channel `c` over cell `(gx, gy)` scaled into `[0,1]` by 255. -/
theorem extractSpatialFeatures_grid (img : Image)
    (hw : img.width = 224) (hh : img.height = 224) :
    (extractSpatialFeatures img).length = 48 ∧
    (∀ gy gx c : Nat, gy < 4 → gx < 4 → c < 3 →
      ∀ hlt : (gy * 4 + gx) * 3 + c < (extractSpatialFeatures img).length,
        (extractSpatialFeatures img).get ⟨(gy * 4 + gx) * 3 + c, hlt⟩ =
          cellTotal img c gx gy / (56 * 56) / 255) ∧
    (∀ gx gy : Nat, gx < 4 → gy < 4 →
      cellSet img gx gy =
        Finset.Ico (gx * 56) ((gx + 1) * 56)
          ×ˢ Finset.Ico (gy * 56) ((gy + 1) * 56) ∧
      (cellSet img gx gy).card = 56 * 56) ∧
    (∀ x y : Nat, x < img.width → y < img.height →
      ∃ gx gy, gx < 4 ∧ gy < 4 ∧ (x, y) ∈ cellSet img gx gy) := by
  have hcw : cellWidth img = 56 := by rw [cellWidth, hw]
  have hch : cellHeight img = 56 := by rw [cellHeight, hh]
  have hcell : ∀ gx gy : Nat, gx < 4 → gy < 4 →
      cellSet img gx gy =
        Finset.Ico (gx * 56) ((gx + 1) * 56)
          ×ˢ Finset.Ico (gy * 56) ((gy + 1) * 56) := by
    intro gx gy h4x h4y
    rw [cellSet, hcw, hch, hw, hh]
    rw [min_eq_left (by omega), min_eq_left (by omega)]
  have hcard : ∀ gx gy : Nat, gx < 4 → gy < 4 →
      (cellSet img gx gy).card = 56 * 56 := by
    intro gx gy h4x h4y
    rw [hcell gx gy h4x h4y, Finset.card_product, Nat.card_Ico, Nat.card_Ico]
    congr 1 <;> omega
  refine ⟨by simp [extractSpatialFeatures], ?_, ?_, ?_⟩
  · intro gy gx c h4y h4x h3 hlt
    have e1 : ((gy * 4 + gx) * 3 + c) % 3 = c := by omega
    have e2 : ((gy * 4 + gx) * 3 + c) / 3 % 4 = gx := by omega
    have e3 : ((gy * 4 + gx) * 3 + c) / 3 / 4 = gy := by omega
    simp only [extractSpatialFeatures, List.get_eq_getElem, List.getElem_map,
      List.getElem_range]
    rw [e1, e2, e3, cellComp, if_pos (by rw [hcard gx gy h4x h4y]; omega),
      hcard gx gy h4x h4y]
    norm_num
  · intro gx gy h4x h4y
    exact ⟨hcell gx gy h4x h4y, hcard gx gy h4x h4y⟩
  · intro x y hx hy
    rw [hw] at hx
    rw [hh] at hy
    refine ⟨x / 56, y / 56, by omega, by omega, ?_⟩
    rw [hcell (x / 56) (y / 56) (by omega) (by omega)]
    rw [Finset.mem_product]
    constructor <;> (rw [Finset.mem_Ico]; constructor <;> omega)

theorem extractSpatialFeatures_grid_witness :
    (extractSpatialFeatures canon224).length = 48 ∧
    (∃ gx gy, gx < 4 ∧ gy < 4 ∧ ((0 : Nat), (0 : Nat)) ∈ cellSet canon224 gx gy) := by
  have h := extractSpatialFeatures_grid canon224 rfl rfl
  exact ⟨h.1, h.2.2.2 0 0 (by decide) (by decide)⟩

/-! ## Texture features (`extractTextureFeatures`) -/

lemma lastRowWhite_gray_below (x y : Nat) (hy : y < 223) :
    gray lastRowWhite x y = 0 := by
  have hpx : lastRowWhite.px x y = ⟨0, 0, 0⟩ := by
    simp only [lastRowWhite]
    rw [if_neg (by omega)]
  rw [gray, hpx]
  norm_num

lemma lastRowWhite_gray_last (x : Nat) : gray lastRowWhite x 223 = 1 := by
  have hpx : lastRowWhite.px x 223 = ⟨65535, 65535, 65535⟩ := by
    simp [lastRowWhite]
  have h8 : (65535 >>> 8 : Nat) = 255 := by decide
  rw [gray, hpx]
  simp only [h8]
  norm_num

/-- C7 (counterexample): on the canonical-size image that is white
exactly on its last row and black elsewhere, the code's energy value is
0 — the loop sums squares only over `y < height-1`, `x < width-1` — while
the mean of the squared grayscale values over the whole image is 1/224.
The claim's energy description is false on this image. -/
theorem energy_whole_mean_cex :
    energy lastRowWhite ≠ specEnergyWholeMean lastRowWhite := by
  have he : energy lastRowWhite = 0 := by
    rw [energy, energySum]
    rw [Finset.sum_eq_zero]
    · simp
    · intro y hy
      apply Finset.sum_eq_zero
      intro x hx
      have hy223 : y < 223 := by
        simpa [lastRowWhite] using Finset.mem_range.mp hy
      rw [lastRowWhite_gray_below x y hy223]
      ring
  have hs : specEnergyWholeMean lastRowWhite = 1 / 224 := by
    have hzero : ∀ y ∈ Finset.range 223,
        (∑ x ∈ Finset.range 224,
          gray lastRowWhite x y * gray lastRowWhite x y) = 0 := by
      intro y hy
      apply Finset.sum_eq_zero
      intro x hx
      rw [lastRowWhite_gray_below x y (Finset.mem_range.mp hy)]
      ring
    have hlast : (∑ x ∈ Finset.range 224,
        gray lastRowWhite x 223 * gray lastRowWhite x 223) = 224 := by
      have hone : ∀ x ∈ Finset.range 224,
          gray lastRowWhite x 223 * gray lastRowWhite x 223 = 1 := by
        intro x _
        rw [lastRowWhite_gray_last x]
        ring
      rw [Finset.sum_congr rfl hone]
      simp
    rw [specEnergyWholeMean]
    rw [show lastRowWhite.width = 224 from rfl]
    rw [show lastRowWhite.height = 223 + 1 from rfl]
    rw [Finset.sum_range_succ]
    rw [Finset.sum_eq_zero hzero, hlast]
    norm_num
  rw [he, hs]
  norm_num

/-- C7 (amended): the energy component of the texture feature equals the
sum of squared grayscale values over the pixels with `y < height-1` and
`x < width-1` — the last row and column are omitted from the sum —
divided by the full pixel count `width*height`; and the uniformity
component is defined identically to energy, so the two are always
equal. -/
theorem textureFeatures_energy_uniformity (img : Image)
    (h1 : 1 < (extractTextureFeatures img).length)
    (h2 : 2 < (extractTextureFeatures img).length) :
    (extractTextureFeatures img).get ⟨1, h1⟩ =
      (((∑ y ∈ Finset.range (img.height - 1), ∑ x ∈ Finset.range (img.width - 1),
        gray img x y * gray img x y) / (img.width * img.height) : ℚ) : ℝ) ∧
    (extractTextureFeatures img).get ⟨2, h2⟩ =
      (extractTextureFeatures img).get ⟨1, h1⟩ := by
  constructor
  · simp [extractTextureFeatures, energy, energySum]
  · simp [extractTextureFeatures, uniformity]

theorem textureFeatures_energy_uniformity_witness :
    (extractTextureFeatures canon224).get
        ⟨2, by simp [extractTextureFeatures]⟩ =
      (extractTextureFeatures canon224).get
        ⟨1, by simp [extractTextureFeatures]⟩ :=
  (textureFeatures_energy_uniformity canon224
    (by simp [extractTextureFeatures]) (by simp [extractTextureFeatures])).2

/-! ## Combination and L2 normalization (`ExtractFeatures`) -/

lemma normSq_cons (x : ℝ) (v : List ℝ) : normSq (x :: v) = x * x + normSq v :=
  rfl

lemma normSq_nonneg (v : List ℝ) : 0 ≤ normSq v := by
  apply List.sum_nonneg
  intro x hx
  obtain ⟨y, _, rfl⟩ := List.mem_map.mp hx
  exact mul_self_nonneg y

lemma sq_le_normSq (v : List ℝ) (x : ℝ) (hx : x ∈ v) : x * x ≤ normSq v := by
  apply List.single_le_sum
  · intro z hz
    obtain ⟨y, _, rfl⟩ := List.mem_map.mp hz
    exact mul_self_nonneg y
  · exact List.mem_map.mpr ⟨x, hx, rfl⟩

lemma normSq_map_div (v : List ℝ) (n : ℝ) :
    normSq (v.map fun f => f / n) = normSq v / (n * n) := by
  induction v with
  | nil => simp [normSq]
  | cons x v ih =>
    rw [List.map_cons, normSq_cons, normSq_cons, ih, div_mul_div_comm,
      div_add_div_same]

lemma l2Normalize_zero_norm (v : List ℝ) (h : normSq v = 0) :
    l2Normalize v = v := by
  simp only [l2Normalize]
  rw [h, Real.sqrt_zero]
  simp

lemma l2Normalize_length (v : List ℝ) : (l2Normalize v).length = v.length := by
  simp only [l2Normalize]
  split
  · rfl
  · simp

lemma euclNorm_l2Normalize (v : List ℝ) (hv : 0 < normSq v) :
    euclNorm (l2Normalize v) = 1 := by
  have hn : 0 < Real.sqrt (normSq v) := Real.sqrt_pos.mpr hv
  simp only [l2Normalize]
  rw [if_neg (ne_of_gt hn)]
  rw [euclNorm, normSq_map_div, Real.mul_self_sqrt (le_of_lt hv),
    div_self (ne_of_gt hv)]
  exact Real.sqrt_one

lemma fitToDimension_length (d : Nat) (v : List ℝ) :
    (fitToDimension d v).length = d := by
  rw [fitToDimension]
  split
  · simp only [List.length_take]
    omega
  · simp only [List.length_append, List.length_replicate]
    omega

lemma featureVector_length (e : SimpleFeatureExtractor) (c : Image) :
    (featureVector e c).length = e.Dimension := by
  rw [featureVector, l2Normalize_length, fitToDimension_length]

lemma ExtractFeatures_ok (e : SimpleFeatureExtractor) (img c : Image)
    (hc : PreprocessImage img 224 = Except.ok c) (hh : c.height ≠ 0) :
    ExtractFeatures e img = Except.ok (featureVector e c, none) := by
  simp only [ExtractFeatures, hc, extractTextureFeaturesE, if_neg hh]
  rfl

lemma ExtractFeatures_panics_of_height_zero (e : SimpleFeatureExtractor)
    (img c : Image) (hc : PreprocessImage img 224 = Except.ok c)
    (hh : c.height = 0) :
    ExtractFeatures e img = Except.error GoPanic.indexOutOfRange := by
  simp only [ExtractFeatures, hc, extractTextureFeaturesE, if_pos hh]

lemma ResizeImage_wide (img : Image) (t : Nat) (hwh : img.height < img.width) :
    ResizeImage img t =
      Except.ok (resizeLib t (t * img.height / img.width) img) := by
  unfold ResizeImage
  rw [if_pos hwh]

lemma ResizeImage_tall (img : Image) (t : Nat) (hwh : ¬ img.height < img.width)
    (hh0 : img.height ≠ 0) :
    ResizeImage img t =
      Except.ok (resizeLib (t * img.width / img.height) t img) := by
  unfold ResizeImage
  rw [if_neg hwh, if_neg hh0]

lemma rawFeatures_length (img : Image) : (rawFeatures img).length = 100 := by
  simp [rawFeatures, extractColorHistogram, extractTextureFeatures,
    extractSpatialFeatures]

lemma nfntRound_zero_num (b : Nat) : nfntRound 0 b = 0 := by
  rw [nfntRound]
  rcases Nat.eq_zero_or_pos b with rfl | hb
  · rfl
  · exact Nat.div_eq_of_lt (by omega)

lemma histogram_mem_pos (img : Image) (hw : 0 < img.width)
    (hh : 0 < img.height) :
    ∃ q : ℚ, q ∈ extractColorHistogram img ∧ 0 < q := by
  refine ⟨(histCount img Pixel.r (bin8 ((img.px 0 0).r)) : ℚ)
    / (img.width * img.height), ?_, ?_⟩
  · rw [extractColorHistogram]
    apply List.mem_append.mpr
    left
    apply List.mem_append.mpr
    left
    apply List.mem_map.mpr
    refine ⟨bin8 ((img.px 0 0).r), List.mem_range.mpr ?_, rfl⟩
    have := bin8_le ((img.px 0 0).r)
    omega
  · apply div_pos
    · have hpos : 0 < histCount img Pixel.r (bin8 ((img.px 0 0).r)) := by
        apply Finset.card_pos.mpr
        refine ⟨(0, 0), Finset.mem_filter.mpr ⟨?_, rfl⟩⟩
        rw [pixelSet, Finset.mem_product]
        exact ⟨Finset.mem_range.mpr hw, Finset.mem_range.mpr hh⟩
      exact_mod_cast hpos
    · exact_mod_cast Nat.mul_pos hw hh

lemma featureVector_unit_norm (e : SimpleFeatureExtractor) (c : Image)
    (hd : 100 ≤ e.Dimension) (hw : 0 < c.width) (hh : 0 < c.height) :
    euclNorm (featureVector e c) = 1 := by
  obtain ⟨q, hqmem, hqpos⟩ := histogram_mem_pos c hw hh
  have hlen : (rawFeatures c).length = 100 := rawFeatures_length c
  have hqraw : ((q : ℝ)) ∈ rawFeatures c := by
    rw [rawFeatures]
    apply List.mem_append.mpr
    left
    apply List.mem_append.mpr
    left
    exact List.mem_map.mpr ⟨q, hqmem, rfl⟩
  have hmem : ((q : ℝ)) ∈ fitToDimension e.Dimension (rawFeatures c) := by
    rw [fitToDimension, if_neg (by rw [hlen]; omega)]
    exact List.mem_append.mpr (Or.inl hqraw)
  have hS : 0 < normSq (fitToDimension e.Dimension (rawFeatures c)) := by
    have hq : (0 : ℝ) < (q : ℝ) := by exact_mod_cast hqpos
    exact lt_of_lt_of_le (mul_pos hq hq) (sq_le_normSq _ _ hmem)
  rw [featureVector]
  exact euclNorm_l2Normalize _ hS

/-- C1 (counterexample): a valid (non-zero-area) 1000×1 image does not
get a feature vector at all: `ResizeImage` requests height
`274*1/1000 = 0`, the library's aspect-preserving substitute
`uint(0.7 + 274/1000)` is still 0, the center crop yields a 224×0
canonical image, and `calculateEdgeStrength` panics indexing
`grayImg[0]` — so "for every valid image, ExtractFeatures returns a
length-512 unit-norm vector" is false of the program. -/
theorem ExtractFeatures_panic_valid_cex :
    wideImage.width = 1000 ∧ wideImage.height = 1 ∧
    ExtractFeatures NewSimpleFeatureExtractor wideImage =
      Except.error GoPanic.indexOutOfRange :=
  ⟨rfl, rfl, rfl⟩

/-- C1 (amended): for every valid image whose canonical (preprocessed)
image still has positive area, `ExtractFeatures` returns — with a nil
error — a vector of exactly length 512 whose Euclidean norm is exactly 1
(the idealization of "within floating-point tolerance of 1.0"); images
whose extreme aspect ratio degenerates the canonical image panic instead
(the counterexample).  And whenever the pre-normalization norm is
exactly zero, `l2Normalize` returns the unnormalized vector unchanged
instead of dividing by zero. -/
theorem ExtractFeatures_unit_norm (img c : Image)
    (hc : PreprocessImage img 224 = Except.ok c)
    (hw : 0 < c.width) (hh : 0 < c.height) :
    ExtractFeatures NewSimpleFeatureExtractor img =
      Except.ok (featureVector NewSimpleFeatureExtractor c, none) ∧
    (featureVector NewSimpleFeatureExtractor c).length = 512 ∧
    euclNorm (featureVector NewSimpleFeatureExtractor c) = 1 ∧
    (∀ v : List ℝ, normSq v = 0 → l2Normalize v = v) :=
  ⟨ExtractFeatures_ok NewSimpleFeatureExtractor img c hc (by omega),
    featureVector_length NewSimpleFeatureExtractor c,
    featureVector_unit_norm NewSimpleFeatureExtractor c (by decide) hw hh,
    l2Normalize_zero_norm⟩

theorem ExtractFeatures_unit_norm_witness :
    ExtractFeatures NewSimpleFeatureExtractor img300 =
      Except.ok (featureVector NewSimpleFeatureExtractor canon300, none) ∧
    (featureVector NewSimpleFeatureExtractor canon300).length = 512 ∧
    euclNorm (featureVector NewSimpleFeatureExtractor canon300) = 1 ∧
    l2Normalize [(0 : ℝ)] = [0] := by
  have h := ExtractFeatures_unit_norm img300 canon300 rfl (by decide) (by decide)
  exact ⟨h.1, h.2.1, h.2.2.1, h.2.2.2 [0] (by simp [normSq])⟩

/-- C2 (counterexample): no zero-area image makes `ExtractFeatures`
return an error value.  The 0×0 image panics in `ResizeImage` (integer
divide by zero) before anything is returned, and the 0×5 image returns
normally with a `nil` error result — so the claim that extraction fails
(returns an error) on every zero-area image is false. -/
theorem ExtractFeatures_zeroArea_no_error_cex :
    ExtractFeatures NewSimpleFeatureExtractor zeroImage =
      Except.error GoPanic.divideByZero ∧
    (ExtractFeatures NewSimpleFeatureExtractor tallZeroImage).map Prod.snd =
      Except.ok none :=
  ⟨rfl, rfl⟩

/-- C2 (amended): `ExtractFeatures` has no error-returning path:
whenever it returns, the Go `error` result is `nil` and the vector has
exactly 512 components.  Zero-area images are not rejected with an
error: a 0×0 image panics in `ResizeImage` with an integer divide by
zero, a `W×0` image with `W > 0` reaches a zero-height canonical image
and panics indexing `grayImg[0]` in `calculateEdgeStrength`, and a `0×H`
image with `H > 0` returns normally with a `nil` error. -/
theorem ExtractFeatures_never_errors :
    (∀ (img : Image) (v : List ℝ) (err : Option String),
      ExtractFeatures NewSimpleFeatureExtractor img = Except.ok (v, err) →
        err = none ∧ v.length = 512) ∧
    (∀ px : Nat → Nat → Pixel,
      ExtractFeatures NewSimpleFeatureExtractor ⟨0, 0, px⟩ =
        Except.error GoPanic.divideByZero) ∧
    (∀ (w : Nat) (px : Nat → Nat → Pixel), 0 < w →
      ExtractFeatures NewSimpleFeatureExtractor ⟨w, 0, px⟩ =
        Except.error GoPanic.indexOutOfRange) ∧
    (∀ (h : Nat) (px : Nat → Nat → Pixel), 0 < h →
      (ExtractFeatures NewSimpleFeatureExtractor ⟨0, h, px⟩).map Prod.snd =
        Except.ok none) := by
  refine ⟨?_, fun px => rfl, ?_, ?_⟩
  · intro img v err hok
    cases hpre : PreprocessImage img 224 with
    | error p => simp [ExtractFeatures, hpre] at hok
    | ok c =>
      by_cases hh : c.height = 0
      · simp [ExtractFeatures, hpre, extractTextureFeaturesE, hh] at hok
      · rw [ExtractFeatures_ok NewSimpleFeatureExtractor img c hpre hh] at hok
        injection hok with h1
        injection h1 with hv herr
        subst hv
        subst herr
        exact ⟨rfl, featureVector_length NewSimpleFeatureExtractor c⟩
  · intro w px hw
    have h1 : 274 * 0 / w = 0 := by simp
    have hres : ResizeImage (⟨w, 0, px⟩ : Image) 274 =
        Except.ok (resizeLib 274 0 ⟨w, 0, px⟩) := by
      rw [ResizeImage_wide _ 274 hw]
      dsimp only
      rw [h1]
    have hpre : PreprocessImage (⟨w, 0, px⟩ : Image) 224 =
        Except.ok (CenterCrop (resizeLib 274 0 ⟨w, 0, px⟩) 224) := by
      show (ResizeImage (⟨w, 0, px⟩ : Image) 274).map
        (fun resized => CenterCrop resized 224) = _
      rw [hres]
      rfl
    have hheight :
        (CenterCrop (resizeLib 274 0 (⟨w, 0, px⟩ : Image)) 224).height
          = 0 := by
      have h2 : (resizeLib 274 0 (⟨w, 0, px⟩ : Image)).height = 0 := by
        show nfntRound (0 * 274) w = 0
        rw [Nat.zero_mul]
        exact nfntRound_zero_num w
      show min 224 (resizeLib 274 0 (⟨w, 0, px⟩ : Image)).height = 0
      rw [h2]
      decide
    exact ExtractFeatures_panics_of_height_zero _ _ _ hpre hheight
  · intro h px hh
    have h1 : 274 * 0 / h = 0 := by simp
    have hres : ResizeImage (⟨0, h, px⟩ : Image) 274 =
        Except.ok (resizeLib 0 274 ⟨0, h, px⟩) := by
      rw [ResizeImage_tall _ 274 (Nat.not_lt_zero h)
        (Nat.pos_iff_ne_zero.mp hh)]
      dsimp only
      rw [h1]
    have hpre : PreprocessImage (⟨0, h, px⟩ : Image) 224 =
        Except.ok (CenterCrop (resizeLib 0 274 ⟨0, h, px⟩) 224) := by
      show (ResizeImage (⟨0, h, px⟩ : Image) 274).map
        (fun resized => CenterCrop resized 224) = _
      rw [hres]
      rfl
    have hheight :
        (CenterCrop (resizeLib 0 274 (⟨0, h, px⟩ : Image)) 224).height
          ≠ 0 := by
      show min 224 (resizeLib 0 274 (⟨0, h, px⟩ : Image)).height ≠ 0
      have h2 : (resizeLib 0 274 (⟨0, h, px⟩ : Image)).height = 274 := rfl
      rw [h2]
      decide
    rw [ExtractFeatures_ok NewSimpleFeatureExtractor _ _ hpre hheight]
    rfl

theorem ExtractFeatures_never_errors_witness :
    ((none : Option String) = none ∧
      (featureVector NewSimpleFeatureExtractor canon300).length = 512) ∧
    ExtractFeatures NewSimpleFeatureExtractor ⟨5, 0, fun _ _ => ⟨0, 0, 0⟩⟩ =
      Except.error GoPanic.indexOutOfRange ∧
    (ExtractFeatures NewSimpleFeatureExtractor
        ⟨0, 5, fun _ _ => ⟨0, 0, 0⟩⟩).map Prod.snd = Except.ok none := by
  refine ⟨?_, ?_, ?_⟩
  · exact ExtractFeatures_never_errors.1 img300
      (featureVector NewSimpleFeatureExtractor canon300) none
      (ExtractFeatures_ok NewSimpleFeatureExtractor img300 canon300 rfl
        (by decide))
  · exact ExtractFeatures_never_errors.2.2.1 5 (fun _ _ => ⟨0, 0, 0⟩)
      (by decide)
  · exact ExtractFeatures_never_errors.2.2.2 5 (fun _ _ => ⟨0, 0, 0⟩)
      (by decide)

end ImageSearch
